import Mathlib

/-!
Shallow embedding of `src/dags/firebase/firestore.py` (class `Firestore`),
a thin data-access facade over a document store.

The remote store is modelled as explicit state: a store maps collection
names to collections, a collection maps document ids to documents, and a
document is a plain field mapping.  All maps are association lists read
through a first-match lookup, which matches Python dict semantics (Python
dicts have no duplicate keys, so first-match lookup agrees with dict
lookup on every state the facade can produce, and is well defined on all
states).  Field values are strings, which covers every value the facade
itself reads or writes (uid guards, timestamps, injected identifiers).

Python exceptions are modelled with `Except String`: the one store error
relevant to this code is the not-found failure of a raw `update` on a
missing document (the Firestore client raises there, while `set` and
`delete` succeed on a missing document).
-/

namespace FirestoreModel

/-- A stored document: a field-name-to-value mapping. -/
abbrev Doc := List (String × String)

/-- A collection: document id to document. -/
abbrev Coll := List (String × Doc)

/-- The whole store: collection name to collection. -/
abbrev Store := List (String × Coll)

/-- First-match lookup in an association list (Python dict lookup). -/
def alookup {β : Type} : List (String × β) → String → Option β
  | [], _ => none
  | (k, v) :: rest, key => if k = key then some v else alookup rest key

/-- Remove every binding of a key. -/
def aerase {β : Type} : List (String × β) → String → List (String × β)
  | [], _ => []
  | (k, v) :: rest, key =>
      if k = key then aerase rest key else (k, v) :: aerase rest key

/-- Set a key to a value (Python `d[k] = v` up to lookup semantics). -/
def aset {β : Type} (l : List (String × β)) (key : String) (v : β) :
    List (String × β) :=
  (key, v) :: aerase l key

@[simp]
theorem alookup_nil {β : Type} (key : String) :
    alookup ([] : List (String × β)) key = none := rfl

@[simp]
theorem alookup_cons {β : Type} (k : String) (v : β) (rest : List (String × β))
    (key : String) :
    alookup ((k, v) :: rest) key =
      if k = key then some v else alookup rest key := rfl

theorem alookup_aerase {β : Type} (l : List (String × β)) (k key : String) :
    alookup (aerase l k) key = if key = k then none else alookup l key := by
  induction l with
  | nil => simp [aerase]
  | cons hd tl ih =>
      obtain ⟨k', v⟩ := hd
      simp only [aerase]
      by_cases hk : k' = k
      · rw [if_pos hk, ih]
        by_cases hkey : key = k
        · simp [hkey]
        · have hne : ¬ k' = key := fun hcontra => hkey (hcontra ▸ hk)
          simp [hkey, hne]
      · rw [if_neg hk]
        simp only [alookup_cons, ih]
        by_cases hkey : key = k
        · have hne : ¬ k' = key := fun hcontra => hk (hcontra.trans hkey)
          simp [hkey, hne, hk]
        · simp [hkey]

@[simp]
theorem alookup_aset_self {β : Type} (l : List (String × β)) (k : String)
    (v : β) : alookup (aset l k v) k = some v := by
  simp [aset]

theorem alookup_aset_ne {β : Type} (l : List (String × β)) (k key : String)
    (v : β) (h : key ≠ k) : alookup (aset l k v) key = alookup l key := by
  have hk : ¬ k = key := fun hh => h hh.symm
  simp [aset, hk, alookup_aerase, h]

theorem alookup_aset {β : Type} (l : List (String × β)) (k key : String)
    (v : β) :
    alookup (aset l k v) key = if key = k then some v else alookup l key := by
  by_cases h : key = k
  · subst h; simp
  · simp [alookup_aset_ne l k key v h, h]

/-- Membership of a key implies the lookup finds something. -/
theorem alookup_isSome_of_mem {β : Type} {l : List (String × β)}
    {k : String} {v : β} (h : (k, v) ∈ l) : (alookup l k).isSome := by
  induction l with
  | nil => cases h
  | cons hd tl ih =>
      obtain ⟨k', v'⟩ := hd
      rcases List.mem_cons.mp h with h1 | h1
      · cases h1
        simp [alookup]
      · by_cases hk : k' = k
        · simp [alookup, hk]
        · simpa [alookup, hk] using ih h1

/-! ### The database client collaborator

The `client` object comes from `firestore_config` (external wiring).  The
collection / document references it hands out are modelled directly as
operations on the explicit `Store` state, with Firestore client
semantics: `set` creates or replaces, `update` merges fields and raises
not-found on a missing document, `delete` succeeds whether or not the
document exists, an equality `FieldFilter` matches documents whose field
is present and equal, and streaming a nonexistent collection yields
nothing. -/

/-- Collection reference: a missing collection behaves as empty. -/
def Store.getColl (s : Store) (c : String) : Coll :=
  (alookup s c).getD []

/-- Point read of a document (`doc_ref.get`): `some` iff `doc.exists`. -/
def Coll.getDoc (coll : Coll) (id : String) : Option Doc :=
  alookup coll id

/-- Write-through of a whole collection back into the store. -/
def Store.setColl (s : Store) (c : String) (coll : Coll) : Store :=
  aset s c coll

/-- Create-or-replace a document (`doc_ref.set`). -/
def Store.setDoc (s : Store) (c id : String) (d : Doc) : Store :=
  Store.setColl s c (aset (Store.getColl s c) id d)

/-- Delete a document (`doc_ref.delete`); succeeds even when absent. -/
def Store.deleteDoc (s : Store) (c id : String) : Store :=
  Store.setColl s c (aerase (Store.getColl s c) id)

/-- Field-merge of a patch into a document (`doc_ref.update` payload). -/
def Doc.updateFields (d : Doc) (patch : Doc) : Doc :=
  patch.foldl (fun acc kv => aset acc kv.1 kv.2) d

/-- Raw `doc_ref.update`: merges the patch, raises not-found when the
document does not exist (Firestore client behavior). -/
def Store.updateDoc (s : Store) (c id : String) (patch : Doc) :
    Except String Store :=
  match Coll.getDoc (Store.getColl s c) id with
  | some d => .ok (Store.setDoc s c id (Doc.updateFields d patch))
  | none => .error "NotFound"

/-- The merge a successful `update` performs (total companion of
`Store.updateDoc`, used to state what "the patch was applied" means). -/
def Store.updateDocU (s : Store) (c id : String) (patch : Doc) : Store :=
  match Coll.getDoc (Store.getColl s c) id with
  | some d => Store.setDoc s c id (Doc.updateFields d patch)
  | none => s

/-- One conjunctive equality-filter pass: a chained sequence of
`ref.where(filter=FieldFilter(k, "==", v))` calls keeps exactly the
documents whose field `k` is present and equal to `v` for every pair. -/
def matchesFilters (kvs : List (String × String)) (d : Doc) : Bool :=
  kvs.all (fun kv => alookup d kv.1 == some kv.2)

/-- Stream of a (possibly filtered) collection reference, in store order. -/
def streamFiltered (coll : Coll) (kvs : List (String × String)) :
    List (String × Doc) :=
  coll.filter (fun p => matchesFilters kvs p.2)

/-! ### The document normalizer collaborator -/

/-- Modelled from the spec: `DBUtils.parse_doc` (from `.utils`, a file not
in the sources) converts one store-native document into a plain field
mapping.  On the model's raw `(id, fields)` stream element that mapping is
the fields component. -/
def DBUtils.parse_doc (p : String × Doc) : Doc := p.2

/-- Modelled from the spec: `DBUtils.filter_empty` (from `.utils`, a file
not in the sources) drops entries that are empty or null-equivalent. -/
def DBUtils.filter_empty (l : List Doc) : List Doc :=
  l.filter (fun d => !d.isEmpty)

/-- A Python runtime value escaping through a facade return.  `writeRes`
stands for the `google.cloud.firestore_v1.types.WriteResult` object that
`doc_ref.set(...)` returns; it is a distinct object, never a string. -/
inductive PyVal where
  | str : String → PyVal
  | writeRes : PyVal
deriving DecidableEq, Repr

/-! ### The facade (`class Firestore`)

Each static method becomes a function over the explicit store state.
Operations that may raise in Python return `Except String`; the
boolean-result mutations (`update`, `update_where`, `delete`) wrap their
body in try/except and so are total, returning the (possibly partially)
mutated store together with the boolean.  Nondeterministic inputs of the
environment — the current UTC time and the store-assigned fresh id — are
passed as explicit parameters (`now`, `newId`). -/

namespace Firestore

/-- `Firestore.scan`: stream every document, parse, drop empties. -/
def scan (s : Store) (collection : String) : List Doc :=
  let docs := Store.getColl s collection
  DBUtils.filter_empty (docs.map (fun doc => DBUtils.parse_doc doc))

/-- `Firestore.get_docs`: equality-filter on the literal field "uid",
stream, parse, drop empties. -/
def get_docs (s : Store) (collection : String) (uid : String) : List Doc :=
  let docs := streamFiltered (Store.getColl s collection) [("uid", uid)]
  DBUtils.filter_empty (docs.map (fun doc => DBUtils.parse_doc doc))

/-- `Firestore.get_doc`: point read; `doc.to_dict()` when it exists,
`None` otherwise.  No normalization and no empty-filtering. -/
def get_doc (s : Store) (collection : String) (doc_id : String) :
    Option Doc :=
  Coll.getDoc (Store.getColl s collection) doc_id

/-- `Firestore.query`: chain one equality filter per key-value entry,
stream, parse, drop empties. -/
def query (s : Store) (collection : String)
    (key_values : List (String × String)) : List Doc :=
  let docs := streamFiltered (Store.getColl s collection) key_values
  DBUtils.filter_empty (docs.map (fun doc => DBUtils.parse_doc doc))

/-- `Firestore.add`: stamp "added_at" with the current time, insert under
a store-assigned fresh id, then a second write injecting that id under
`id_key_name`; returns the id.  No try/except: a failure propagates. -/
def add (s : Store) (collection : String) (data : Doc)
    (id_key_name : String) (now newId : String) :
    Except String (Store × String) :=
  let data' := aset data "added_at" now
  let s1 := Store.setDoc s collection newId data'
  (Store.updateDoc s1 collection newId [(id_key_name, newId)]).map
    (fun s2 => (s2, newId))

/-- `Firestore.add_with_existing_id`: stamp "added_at", then raise
`ValueError` when `id_key_name` is not a key of the (already stamped)
data, else create-or-replace at the key `data[id_key_name]` and return
the result of `ref.set(data)` — a `WriteResult` object. -/
def add_with_existing_id (s : Store) (collection : String) (data : Doc)
    (id_key_name : String) (now : String) :
    Except String (Store × PyVal) :=
  let data' := aset data "added_at" now
  match alookup data' id_key_name with
  | none =>
      .error ("ID key name " ++ id_key_name ++ " not found in the data.")
  | some idv => .ok (Store.setDoc s collection idv data', PyVal.writeRes)

/-- `Firestore.update`: with a `uid` guard, read first and merge only
when the document exists and its stored "uid" equals the guard; without
a guard, merge unconditionally.  The whole body is inside try/except, so
any raise (the not-found of a raw update) becomes a `false` result with
the store left as it was at the raise. -/
def update (s : Store) (collection : String) (doc_id : String)
    (update_dict : Doc) (uid : Option String) : Store × Bool :=
  match uid with
  | some u =>
      match Coll.getDoc (Store.getColl s collection) doc_id with
      | some d =>
          if alookup d "uid" = some u then
            match Store.updateDoc s collection doc_id update_dict with
            | .ok s' => (s', true)
            | .error _ => (s, false)
          else (s, false)
      | none => (s, false)
  | none =>
      match Store.updateDoc s collection doc_id update_dict with
      | .ok s' => (s', true)
      | .error _ => (s, false)

/-- Sequential per-document merges of `Firestore.update_where`'s loop: on
the first raise the loop aborts with `false`, keeping the writes already
made; completion of the whole list yields `true`. -/
def updateAll (s : Store) (collection : String) (update_dict : Doc) :
    List String → Store × Bool
  | [] => (s, true)
  | id :: rest =>
      match Store.updateDoc s collection id update_dict with
      | .ok s' => updateAll s' collection update_dict rest
      | .error _ => (s, false)

/-- `Firestore.update_where`: resolve the filtered matching set, then
merge the patch into each match sequentially; try/except converts any
raise into a `false` result (partial application kept, not rolled back).
-/
def update_where (s : Store) (collection : String)
    (key_values : List (String × String)) (update_dict : Doc) :
    Store × Bool :=
  let docs := streamFiltered (Store.getColl s collection) key_values
  updateAll s collection update_dict (docs.map (fun p => p.1))

/-- `Firestore.delete`: with a `uid` guard, read first and delete only
when the document exists and its stored "uid" equals the guard; without
a guard, delete unconditionally (the client's delete succeeds even on a
missing document).  Same try/except-to-boolean policy. -/
def delete (s : Store) (collection : String) (doc_id : String)
    (uid : Option String) : Store × Bool :=
  match uid with
  | some u =>
      match Coll.getDoc (Store.getColl s collection) doc_id with
      | some d =>
          if alookup d "uid" = some u then
            (Store.deleteDoc s collection doc_id, true)
          else (s, false)
      | none => (s, false)
  | none => (Store.deleteDoc s collection doc_id, true)

end Firestore

/-! ### Read-after-write lemmas for the client model -/

@[simp]
theorem getColl_setColl_self (s : Store) (c : String) (coll : Coll) :
    Store.getColl (Store.setColl s c coll) c = coll := by
  simp [Store.getColl, Store.setColl]

theorem getColl_setColl_ne (s : Store) (c c' : String) (coll : Coll)
    (h : c' ≠ c) :
    Store.getColl (Store.setColl s c coll) c' = Store.getColl s c' := by
  simp [Store.getColl, Store.setColl, alookup_aset_ne _ _ _ _ h]

theorem getDoc_setDoc (s : Store) (c id : String) (d : Doc)
    (c' id' : String) :
    Coll.getDoc (Store.getColl (Store.setDoc s c id d) c') id' =
      if c' = c then
        if id' = id then some d else Coll.getDoc (Store.getColl s c) id'
      else Coll.getDoc (Store.getColl s c') id' := by
  by_cases hc : c' = c
  · subst hc
    rw [Store.setDoc, getColl_setColl_self]
    simp [Coll.getDoc, alookup_aset]
  · rw [Store.setDoc, getColl_setColl_ne _ _ _ _ hc]
    simp [hc]

theorem getDoc_deleteDoc_self (s : Store) (c id : String) :
    Coll.getDoc (Store.getColl (Store.deleteDoc s c id) c) id = none := by
  rw [Store.deleteDoc, getColl_setColl_self]
  simp [Coll.getDoc, alookup_aerase]

theorem updateDoc_ok {s : Store} {c id : String} {patch d : Doc}
    (h : Coll.getDoc (Store.getColl s c) id = some d) :
    Store.updateDoc s c id patch =
      .ok (Store.setDoc s c id (Doc.updateFields d patch)) := by
  simp [Store.updateDoc, h]

theorem updateDocU_eq {s : Store} {c id : String} {patch d : Doc}
    (h : Coll.getDoc (Store.getColl s c) id = some d) :
    Store.updateDocU s c id patch =
      Store.setDoc s c id (Doc.updateFields d patch) := by
  simp [Store.updateDocU, h]

theorem updateDoc_ok_eq {s : Store} {c id : String} {patch : Doc}
    {s2 : Store} (h : Store.updateDoc s c id patch = .ok s2) :
    s2 = Store.updateDocU s c id patch := by
  unfold Store.updateDoc at h
  cases hdoc : Coll.getDoc (Store.getColl s c) id with
  | some d =>
      rw [hdoc] at h
      simp only [Except.ok.injEq] at h
      rw [updateDocU_eq hdoc, h]
  | none => rw [hdoc] at h; cases h

/-! ### Normalization lemmas -/

@[simp]
theorem matchesFilters_nil (d : Doc) : matchesFilters [] d = true := rfl

theorem matchesFilters_singleton (k v : String) (d : Doc) :
    matchesFilters [(k, v)] d = (alookup d k == some v) := by
  simp [matchesFilters]

theorem mem_filter_empty_ne_nil {l : List Doc} {d : Doc}
    (h : d ∈ DBUtils.filter_empty l) : d ≠ [] := by
  have h2 := (List.mem_filter.mp h).2
  intro hnil
  subst hnil
  simp at h2

/-- Filtering the raw stream commutes with the parse-and-drop-empties
normalization. -/
theorem filter_empty_map_parse_filter (q : Doc → Bool)
    (l : List (String × Doc)) :
    DBUtils.filter_empty
        ((l.filter (fun p => q p.2)).map (fun p => DBUtils.parse_doc p)) =
      (DBUtils.filter_empty
        (l.map (fun p => DBUtils.parse_doc p))).filter q := by
  simp only [DBUtils.filter_empty, DBUtils.parse_doc]
  induction l with
  | nil => rfl
  | cons p rest ih =>
      cases h1 : q p.2 <;> cases h2 : p.2.isEmpty <;>
        simp [List.filter_cons, h1, h2, ih]

/-! ### Claim theorems -/

/-- Claim C5: for every collection and store state, `query` with an empty
key-values mapping returns the same document list as `scan`: zero filter
entries apply no filter, and both normalize and drop empty mappings
identically. -/
theorem c5_query_empty_eq_scan (s : Store) (c : String) :
    Firestore.query s c [] = Firestore.scan s c := by
  unfold Firestore.query Firestore.scan streamFiltered
  simp [matchesFilters]

/-- Claim C6: `get_docs` returns exactly the sublist of `scan` whose
"uid" field equals the given value — the same documents, in the same
store order, never an error (the result is merely empty when nothing
matches). -/
theorem c6_get_docs_eq_scan_filter (s : Store) (c u : String) :
    Firestore.get_docs s c u =
      (Firestore.scan s c).filter (fun d => alookup d "uid" == some u) := by
  have hfun : (fun p : String × Doc => matchesFilters [("uid", u)] p.2) =
      (fun p : String × Doc => alookup p.2 "uid" == some u) := by
    funext p
    exact matchesFilters_singleton "uid" u p.2
  simp only [Firestore.get_docs, Firestore.scan, streamFiltered]
  rw [hfun]
  exact filter_empty_map_parse_filter
    (fun d => alookup d "uid" == some u) (Store.getColl s c)

/-- A concrete store used by the witnesses: one collection "c" holding
one document "d" owned by uid "u1". -/
def demoStore : Store := [("c", [("d", [("uid", "u1"), ("x", "0")])])]

/-- A concrete store whose single document has no "uid" field. -/
def noUidStore : Store := [("c", [("d", [("x", "1")])])]

/-- Claim C1: the ownership guard.  With a supplied guard value `u`,
`update` returns `true` exactly when a document exists at `doc_id` whose
stored "uid" equals `u`; in that case the result store is the one with
the patch merged into that document, and on any mismatch (wrong uid,
missing document) it returns `false` with the store unchanged.
Symmetrically, `delete` returns `true` exactly under the same guard, the
document is gone from the result store, and otherwise the store is
unchanged (the document stays present) with a `false` result. -/
theorem c1_ownership_guard (s : Store) (c id : String) (patch : Doc)
    (u : String) :
    ((Firestore.update s c id patch (some u)).2 = true ↔
        ∃ d, Coll.getDoc (Store.getColl s c) id = some d ∧
          alookup d "uid" = some u) ∧
    (∀ d, Coll.getDoc (Store.getColl s c) id = some d →
        alookup d "uid" = some u →
        (Firestore.update s c id patch (some u)).1 =
          Store.setDoc s c id (Doc.updateFields d patch)) ∧
    ((Firestore.update s c id patch (some u)).2 = false →
        (Firestore.update s c id patch (some u)).1 = s) ∧
    ((Firestore.delete s c id (some u)).2 = true ↔
        ∃ d, Coll.getDoc (Store.getColl s c) id = some d ∧
          alookup d "uid" = some u) ∧
    ((Firestore.delete s c id (some u)).2 = true →
        Coll.getDoc
          (Store.getColl (Firestore.delete s c id (some u)).1 c) id =
          none) ∧
    ((Firestore.delete s c id (some u)).2 = false →
        (Firestore.delete s c id (some u)).1 = s) := by
  cases hdoc : Coll.getDoc (Store.getColl s c) id with
  | none =>
      simp [Firestore.update, Firestore.delete, hdoc]
  | some d =>
      by_cases hu : alookup d "uid" = some u
      · simp only [Firestore.update, Firestore.delete, hdoc, if_pos hu,
          updateDoc_ok hdoc]
        refine ⟨by simp [hu], ?_, by simp, by simp [hu], ?_, by simp⟩
        · intro d' hd' _
          obtain rfl : d = d' := by injection hd'
          rfl
        · intro _
          exact getDoc_deleteDoc_self s c id
      · simp only [Firestore.update, Firestore.delete, hdoc, if_neg hu]
        refine ⟨by simp [hu], ?_, by simp, by simp [hu], by simp, by simp⟩
        intro d' hd' hu'
        obtain rfl : d = d' := by injection hd'
        exact absurd hu' hu

/-- Claim C1 witness: on the demo store the guard "u1" matches, so both
`update` and `delete` report success. -/
theorem c1_ownership_guard_witness :
    (Firestore.update demoStore "c" "d" [("x", "9")] (some "u1")).2 =
      true ∧
    (Firestore.delete demoStore "c" "d" (some "u1")).2 = true := by
  constructor
  · exact (c1_ownership_guard demoStore "c" "d" [("x", "9")] "u1").1.mpr
      ⟨[("uid", "u1"), ("x", "0")], rfl, rfl⟩
  · exact (c1_ownership_guard demoStore "c" "d" [("x", "9")]
      "u1").2.2.2.1.mpr ⟨[("uid", "u1"), ("x", "0")], rfl, rfl⟩

/-- Claim C10: when a guard value is supplied and the document at the id
exists but stores no "uid" field at all, the guard comparison reads the
absent sentinel (`None` in Python, `none` here), which never equals a
supplied guard string, so neither `update` nor `delete` touches the
store and both return `false`. -/
theorem c10_no_uid_field_guard (s : Store) (c id : String) (patch : Doc)
    (u : String) (d : Doc)
    (hdoc : Coll.getDoc (Store.getColl s c) id = some d)
    (hnouid : alookup d "uid" = none) :
    Firestore.update s c id patch (some u) = (s, false) ∧
    Firestore.delete s c id (some u) = (s, false) := by
  have hne : ¬ alookup d "uid" = some u := by
    rw [hnouid]
    exact Option.noConfusion
  simp [Firestore.update, Firestore.delete, hdoc, hne]

/-- Claim C10 witness: concrete store whose document "d" lacks a "uid"
field; a guarded update and delete both fail and leave the store as is.
-/
theorem c10_no_uid_field_guard_witness :
    Firestore.update noUidStore "c" "d" [("x", "9")] (some "u1") =
      (noUidStore, false) ∧
    Firestore.delete noUidStore "c" "d" (some "u1") =
      (noUidStore, false) :=
  c10_no_uid_field_guard noUidStore "c" "d" [("x", "9")] "u1"
    [("x", "1")] rfl rfl

/-- Claim C2 counterexample: with `id_key_name` = "added_at", the second
write of `add` stores the new identifier "id1" under "added_at", so the
resulting document's "added_at" is not the start-of-call timestamp "T0".
-/
theorem c2_counterexample :
    Firestore.add [] "c" [] "added_at" "T0" "id1" =
      .ok ([("c", [("id1", [("added_at", "id1")])])], "id1") ∧
    alookup ([("added_at", "id1")] : Doc) "added_at" = some "id1" ∧
    ("id1" : String) ≠ "T0" :=
  ⟨rfl, rfl, by decide⟩

/-- Claim C2 (amended): `add` returns the store-assigned identifier and
the resulting document stores that identifier under `id_key_name`;
moreover, provided `id_key_name` is not the literal "added_at", the
document's "added_at" field equals the timestamp taken at the start of
the call.  (When `id_key_name` is "added_at" the second write overwrites
the timestamp with the identifier, refuting the unconditional claim.) -/
theorem c2_add_injects_id (s : Store) (c : String) (data : Doc)
    (id_key_name now newId : String) :
    ∃ s2, Firestore.add s c data id_key_name now newId =
        .ok (s2, newId) ∧
      ∃ d, Coll.getDoc (Store.getColl s2 c) newId = some d ∧
        alookup d id_key_name = some newId ∧
        (id_key_name ≠ "added_at" → alookup d "added_at" = some now) := by
  have hdoc1 : Coll.getDoc
      (Store.getColl (Store.setDoc s c newId (aset data "added_at" now)) c)
      newId = some (aset data "added_at" now) := by
    rw [getDoc_setDoc]
    simp
  refine ⟨Store.setDoc (Store.setDoc s c newId (aset data "added_at" now))
      c newId
      (Doc.updateFields (aset data "added_at" now)
        [(id_key_name, newId)]), ?_, ?_⟩
  · simp only [Firestore.add, updateDoc_ok hdoc1, Except.map]
  · refine ⟨Doc.updateFields (aset data "added_at" now)
        [(id_key_name, newId)], ?_, ?_, ?_⟩
    · rw [getDoc_setDoc]
      simp
    · simp [Doc.updateFields]
    · intro hne
      have h1 : ("added_at" : String) ≠ id_key_name := fun hh => hne hh.symm
      simp [Doc.updateFields, alookup_aset_ne _ _ _ _ h1]

/-- Claim C2 witness: a concrete insertion under `id_key_name` = "uid";
the returned id "id1" is stored under "uid" and "added_at" holds the
start-of-call timestamp "T0". -/
theorem c2_add_injects_id_witness :
    ∃ s2, Firestore.add [] "c" [("n", "A")] "uid" "T0" "id1" =
        .ok (s2, "id1") ∧
      ∃ d, Coll.getDoc (Store.getColl s2 "c") "id1" = some d ∧
        alookup d "uid" = some "id1" ∧
        alookup d "added_at" = some "T0" := by
  obtain ⟨s2, h1, d, h2, h3, h4⟩ :=
    c2_add_injects_id [] "c" [("n", "A")] "uid" "T0" "id1"
  exact ⟨s2, h1, d, h2, h3, h4 (by decide)⟩

/-- Claim C3 counterexample: the "added_at" stamp is merged into the data
before the membership check, so with `id_key_name` = "added_at" — a key
absent from the caller-supplied mapping — the call does not fail: it
writes a document (keyed by the timestamp) and returns a write result.
-/
theorem c3_counterexample :
    Firestore.add_with_existing_id [] "c" [("name", "Bo")] "added_at"
        "T0" =
      .ok ([("c", [("T0", [("added_at", "T0"), ("name", "Bo")])])],
        PyVal.writeRes) ∧
    alookup ([("name", "Bo")] : Doc) "added_at" = none :=
  ⟨rfl, rfl⟩

/-- Claim C3 (amended): `add_with_existing_id` fails with the
`ValueError` and performs zero writes whenever `id_key_name` is missing
from the caller-supplied mapping AND is not the literal "added_at" (the
timestamp stamped before the check makes "added_at" always present).
The error is returned before any store operation, so the store is
untouched by construction. -/
theorem c3_missing_key_fails (s : Store) (c : String) (data : Doc)
    (id_key_name now : String)
    (hmiss : alookup data id_key_name = none)
    (hne : id_key_name ≠ "added_at") :
    Firestore.add_with_existing_id s c data id_key_name now =
      .error ("ID key name " ++ id_key_name ++
        " not found in the data.") := by
  have hlook : alookup (aset data "added_at" now) id_key_name = none := by
    rw [alookup_aset_ne _ _ _ _ hne]
    exact hmiss
  simp [Firestore.add_with_existing_id, hlook]

/-- Claim C3 witness: a mapping without a "uid" key makes
`add_with_existing_id(..., "uid")` raise the `ValueError` with no write.
-/
theorem c3_missing_key_fails_witness :
    Firestore.add_with_existing_id [] "c" [("name", "Bo")] "uid" "T0" =
      .error ("ID key name " ++ "uid" ++ " not found in the data.") :=
  c3_missing_key_fails [] "c" [("name", "Bo")] "uid" "T0" rfl
    (by decide)

/-- Claim C4: the code returns the value of `ref.set(data)` — the store
client's `WriteResult` object — not the identifier `data[id_key_name]`.
At the failing input the document is correctly written at key "abc", but
the returned value is the write result, which is not the string "abc".
-/
theorem c4_returns_write_result :
    Firestore.add_with_existing_id [] "users"
        [("uid", "abc"), ("name", "Bo")] "uid" "T0" =
      .ok ([("users",
          [("abc", [("added_at", "T0"), ("uid", "abc"), ("name", "Bo")])])],
        PyVal.writeRes) ∧
    PyVal.writeRes ≠ PyVal.str "abc" :=
  ⟨rfl, by decide⟩

/-- Every id pulled from a stream of the collection names a document that
exists in it. -/
theorem mem_stream_present (coll : Coll) (kvs : List (String × String))
    (id : String)
    (h : id ∈ (streamFiltered coll kvs).map (fun p => p.1)) :
    (Coll.getDoc coll id).isSome := by
  obtain ⟨p, hp, hid⟩ := List.mem_map.mp h
  have hmem : p ∈ coll := List.mem_of_mem_filter hp
  obtain ⟨k, v⟩ := p
  cases hid
  exact alookup_isSome_of_mem hmem

/-- When every listed id exists, the sequential update loop completes:
it never raises, returns `true`, and the final store is the left fold of
the individual merges. -/
theorem updateAll_eq_foldl (c : String) (patch : Doc) :
    ∀ (ids : List String) (s : Store),
      (∀ id ∈ ids, (Coll.getDoc (Store.getColl s c) id).isSome) →
      Firestore.updateAll s c patch ids =
        (ids.foldl (fun st id => Store.updateDocU st c id patch) s,
          true) := by
  intro ids
  induction ids with
  | nil => intro s _; rfl
  | cons id0 rest ih =>
      intro s hall
      have h0 := hall id0 (List.mem_cons_self id0 rest)
      obtain ⟨d, hd⟩ := Option.isSome_iff_exists.mp h0
      simp only [Firestore.updateAll, updateDoc_ok hd, List.foldl_cons]
      rw [ih (Store.setDoc s c id0 (Doc.updateFields d patch))]
      · rw [updateDocU_eq hd]
      · intro idr hidr
        rw [getDoc_setDoc]
        simp only [if_pos rfl]
        by_cases hi : idr = id0
        · simp [hi]
        · simp only [if_neg hi]
          exact hall idr (List.mem_cons_of_mem _ hidr)

/-- Claim C7: `update_where` resolves the matching set, then merges the
patch into every matching document sequentially; in the deterministic
fault-free client model the filter-and-iterate sequence always completes
(every streamed id names an existing document, and merging into an
existing document cannot raise), so the call returns `true` — also when
zero documents match — and never propagates an exception; `false` could
only arise from a raise, which this model shows the sequence itself
never produces. -/
theorem c7_update_where_completes (s : Store) (c : String)
    (kvs : List (String × String)) (patch : Doc) :
    Firestore.update_where s c kvs patch =
      (((streamFiltered (Store.getColl s c) kvs).map
          (fun p => p.1)).foldl
        (fun st id => Store.updateDocU st c id patch) s, true) := by
  unfold Firestore.update_where
  exact updateAll_eq_foldl c patch _ s
    (fun id hid => mem_stream_present _ _ _ hid)

/-- Claim C8 counterexample: `get_doc` applies no normalization and no
empty-filtering, so on a store whose document "d" exists with an empty
field mapping it returns that empty mapping to the caller, refuting the
invariant for the `get_doc` read operation. -/
theorem c8_counterexample :
    Firestore.get_doc [("c", [("d", ([] : Doc))])] "c" "d" = some [] ∧
    ¬ (∀ m, Firestore.get_doc [("c", [("d", ([] : Doc))])] "c" "d" =
        some m → m ≠ []) :=
  ⟨rfl, fun h => h [] rfl rfl⟩

/-- Claim C8 (amended): every document mapping returned by `scan`,
`get_docs` or `query` is non-empty — empty documents are dropped
silently by the normalization — but `get_doc` is excluded: it returns
the raw field mapping without empty-filtering and can hand back an
empty mapping. -/
theorem c8_returned_docs_nonempty (s : Store) (c u : String)
    (kvs : List (String × String)) :
    (∀ d ∈ Firestore.scan s c, d ≠ []) ∧
    (∀ d ∈ Firestore.get_docs s c u, d ≠ []) ∧
    (∀ d ∈ Firestore.query s c kvs, d ≠ []) := by
  refine ⟨?_, ?_, ?_⟩
  · intro d hd
    exact mem_filter_empty_ne_nil hd
  · intro d hd
    exact mem_filter_empty_ne_nil hd
  · intro d hd
    exact mem_filter_empty_ne_nil hd

/-- Claim C8 witness: the demo store's one document comes back from
`scan` and is indeed non-empty. -/
theorem c8_returned_docs_nonempty_witness :
    ([("uid", "u1"), ("x", "0")] : Doc) ≠ [] :=
  (c8_returned_docs_nonempty demoStore "c" "u1" []).1
    [("uid", "u1"), ("x", "0")] (by decide)

/-- The "added_at" value stored for a given collection and document id
(`none` when the document or the field is absent). -/
def addedAtOf (s : Store) (c id : String) : Option String :=
  (Coll.getDoc (Store.getColl s c) id).bind (fun d => alookup d "added_at")

/-- A field that is not a key of the patch is untouched by a merge. -/
theorem alookup_updateFields_notin (d patch : Doc) (k : String)
    (h : alookup patch k = none) :
    alookup (Doc.updateFields d patch) k = alookup d k := by
  induction patch generalizing d with
  | nil => rfl
  | cons hd rest ih =>
      obtain ⟨k1, v1⟩ := hd
      have hk1 : ¬ k1 = k := by
        intro hcontra
        rw [alookup_cons, if_pos hcontra] at h
        cases h
      have hrest : alookup rest k = none := by
        rwa [alookup_cons, if_neg hk1] at h
      have hkne : k ≠ k1 := fun hh => hk1 hh.symm
      simp only [Doc.updateFields, List.foldl_cons] at *
      rw [ih (aset d k1 v1) hrest, alookup_aset_ne _ _ _ _ hkne]

/-- A raw merge whose patch lacks the "added_at" key preserves every
document's "added_at" value, in every collection. -/
theorem addedAtOf_updateDocU (s : Store) (c id : String) (patch : Doc)
    (c' id' : String) (h : alookup patch "added_at" = none) :
    addedAtOf (Store.updateDocU s c id patch) c' id' =
      addedAtOf s c' id' := by
  unfold Store.updateDocU
  cases hdoc : Coll.getDoc (Store.getColl s c) id with
  | none => rfl
  | some d =>
      unfold addedAtOf
      rw [getDoc_setDoc]
      by_cases hc : c' = c
      · subst hc
        by_cases hi : id' = id
        · subst hi
          simp [hdoc, alookup_updateFields_notin _ _ _ h]
        · simp [hi]
      · simp [hc]

/-- `Firestore.update` with an "added_at"-free patch preserves every
stored "added_at" value, whatever the guard and outcome. -/
theorem addedAtOf_update (s : Store) (c id : String) (patch : Doc)
    (uid : Option String) (c' id' : String)
    (h : alookup patch "added_at" = none) :
    addedAtOf (Firestore.update s c id patch uid).1 c' id' =
      addedAtOf s c' id' := by
  cases uid with
  | none =>
      cases hcall : Store.updateDoc s c id patch with
      | ok s2 =>
          simp only [Firestore.update, hcall]
          rw [updateDoc_ok_eq hcall]
          exact addedAtOf_updateDocU s c id patch c' id' h
      | error e => simp [Firestore.update, hcall]
  | some u =>
      cases hdoc : Coll.getDoc (Store.getColl s c) id with
      | none => simp [Firestore.update, hdoc]
      | some d =>
          by_cases hu : alookup d "uid" = some u
          · simp only [Firestore.update, hdoc, if_pos hu,
              updateDoc_ok hdoc]
            have := addedAtOf_updateDocU s c id patch c' id' h
            rwa [updateDocU_eq hdoc] at this
          · simp [Firestore.update, hdoc, hu]

/-- The sequential loop of `update_where` with an "added_at"-free patch
preserves every stored "added_at" value, also when it aborts partway. -/
theorem addedAtOf_updateAll (c : String) (patch : Doc) (c' id' : String)
    (h : alookup patch "added_at" = none) :
    ∀ (ids : List String) (s : Store),
      addedAtOf (Firestore.updateAll s c patch ids).1 c' id' =
        addedAtOf s c' id' := by
  intro ids
  induction ids with
  | nil => intro s; rfl
  | cons id0 rest ih =>
      intro s
      cases hcall : Store.updateDoc s c id0 patch with
      | ok s2 =>
          simp only [Firestore.updateAll, hcall]
          rw [ih s2, updateDoc_ok_eq hcall]
          exact addedAtOf_updateDocU s c id0 patch c' id' h
      | error e => simp [Firestore.updateAll, hcall]

/-- Claim C9 counterexample: nothing protects "added_at" from an
explicit patch — an unguarded `update` whose patch sets "added_at"
succeeds and mutates the stored value from "T0" to "T9". -/
theorem c9_counterexample :
    (Firestore.update [("c", [("d", [("added_at", "T0")])])] "c" "d"
        [("added_at", "T9")] none).2 = true ∧
    addedAtOf (Firestore.update [("c", [("d", [("added_at", "T0")])])]
        "c" "d" [("added_at", "T9")] none).1 "c" "d" = some "T9" ∧
    addedAtOf [("c", [("d", [("added_at", "T0")])])] "c" "d" =
      some "T0" ∧
    ("T9" : String) ≠ "T0" :=
  ⟨rfl, rfl, rfl, by decide⟩

/-- Claim C9 (amended): "added_at" is stamped at insert time, and
`update` / `update_where` leave every document's stored "added_at"
value unchanged provided the patch itself does not contain the key
"added_at"; a patch naming "added_at" explicitly, or a replacement via
`add_with_existing_id` at an existing id, does change it. -/
theorem c9_added_at_stable (s : Store) (c id : String) (patch : Doc)
    (uid : Option String) (kvs : List (String × String))
    (c' id' : String) (h : alookup patch "added_at" = none) :
    addedAtOf (Firestore.update s c id patch uid).1 c' id' =
      addedAtOf s c' id' ∧
    addedAtOf (Firestore.update_where s c kvs patch).1 c' id' =
      addedAtOf s c' id' := by
  constructor
  · exact addedAtOf_update s c id patch uid c' id' h
  · unfold Firestore.update_where
    exact addedAtOf_updateAll c patch c' id' h _ s

/-- Claim C9 witness: a concrete patch without "added_at" leaves the
demo document's timestamp "T0" in place through both `update` and
`update_where`. -/
theorem c9_added_at_stable_witness :
    addedAtOf (Firestore.update [("c", [("d", [("added_at", "T0"),
        ("uid", "u1")])])] "c" "d" [("x", "9")] none).1 "c" "d" =
      addedAtOf [("c", [("d", [("added_at", "T0"), ("uid", "u1")])])]
        "c" "d" ∧
    addedAtOf (Firestore.update_where [("c", [("d",
        [("added_at", "T0"), ("uid", "u1")])])] "c" [("uid", "u1")]
        [("x", "9")]).1 "c" "d" =
      addedAtOf [("c", [("d", [("added_at", "T0"), ("uid", "u1")])])]
        "c" "d" :=
  c9_added_at_stable [("c", [("d", [("added_at", "T0"), ("uid", "u1")])])]
    "c" "d" [("x", "9")] none [("uid", "u1")] "c" "d" rfl

end FirestoreModel
